import Mathlib

/-!
Shallow embedding of the record store, submission handlers, status workflow
and notifier of `app.py` (Flask restaurant backend, JSON-file variant).

Modeling conventions:
* Lean `String` models Python `str`; `pyStrip` models `str.strip()` and
  `pyLower` models `str.lower()` on the ASCII range.
* The persisted JSON array of a collection is modeled as the in-memory
  `List Row` that `read_json`/`write_json` round-trip; each operation takes
  the stored list and returns the stored list after the call.
* `utc_now_iso()` timestamps are passed in as a `now : String` parameter.
* Fallible Python code (a raised exception) is an `Option`/explicit flag.
-/

set_option autoImplicit false

/-- Characters removed by Python `str.strip()` with no argument. -/
def pySpace (c : Char) : Bool :=
  c = ' ' || c = '\t' || c = '\n' || c = '\r' || c = '\x0b' || c = '\x0c'

/-- Python `str.strip()` on the underlying character list: drop `pySpace`
characters from both ends. -/
def stripList (l : List Char) : List Char :=
  ((l.dropWhile pySpace).reverse.dropWhile pySpace).reverse

/-- Python `str.strip()`. -/
def pyStrip (s : String) : String := String.mk (stripList s.data)

/-- ASCII uppercase/lowercase letter pairs. -/
def asciiCase : List (Char × Char) :=
  [('A', 'a'), ('B', 'b'), ('C', 'c'), ('D', 'd'), ('E', 'e'), ('F', 'f'),
   ('G', 'g'), ('H', 'h'), ('I', 'i'), ('J', 'j'), ('K', 'k'), ('L', 'l'),
   ('M', 'm'), ('N', 'n'), ('O', 'o'), ('P', 'p'), ('Q', 'q'), ('R', 'r'),
   ('S', 's'), ('T', 't'), ('U', 'u'), ('V', 'v'), ('W', 'w'), ('X', 'x'),
   ('Y', 'y'), ('Z', 'z')]

/-- Python `str.lower()` on one character (ASCII case mapping; the statuses
and configuration values compared in the source are ASCII). -/
def pyLowerChar (c : Char) : Char :=
  match asciiCase.find? (fun p => p.1 == c) with
  | some p => p.2
  | none => c

/-- Python `str.lower()`. -/
def pyLower (s : String) : String := String.mk (s.data.map pyLowerChar)

/-- Numeric value of a list of decimal digit characters. -/
def digitsVal (l : List Char) : Nat :=
  l.foldl (fun a c => a * 10 + (c.toNat - 48)) 0

/-- Python `int(s)` on a string: strip whitespace, optional sign, one or
more decimal digits; `none` models a raised `ValueError`. (CPython's
underscore digit grouping is not modeled.) -/
def pyParseInt (s : String) : Option Int :=
  match stripList s.data with
  | [] => none
  | '-' :: ds =>
    if ds ≠ [] ∧ ds.all Char.isDigit then some (-(digitsVal ds : Int)) else none
  | '+' :: ds =>
    if ds ≠ [] ∧ ds.all Char.isDigit then some ((digitsVal ds : Int)) else none
  | ds => if ds.all Char.isDigit then some ((digitsVal ds : Int)) else none

/-- Value stored under the `"id"` key of a JSON row, as seen by `int(...)`:
`intVal n` is any value that `int` converts to `n`; `badVal` is any value on
which `int` raises `TypeError` or `ValueError`. -/
inductive IdVal where
  | intVal (n : Int)
  | badVal
deriving DecidableEq

/-- The `email_notification` object written by the store:
`{sent, error, updated_at}` with `sent` equal to `None`, `True` or `False`. -/
structure EmailNotification where
  sent : Option Bool
  error : String
  updated_at : String
deriving DecidableEq

/-- A stored JSON row: the `"id"` entry (`none` when the key is absent), the
domain fields in source order as key/value pairs, plus `status`,
`created_at` and the optional `email_notification` object. -/
structure Row where
  idv : Option IdVal
  fields : List (String × String)
  status : String
  created_at : String
  email_notification : Option EmailNotification
deriving DecidableEq

/-- `int(row.get("id", 0))`: the default `0` when the key is absent; `none`
models the exception raised on a non-numeric value. -/
def rowIdInt (r : Row) : Option Int :=
  match r.idv with
  | none => some 0
  | some (IdVal.intVal n) => some n
  | some IdVal.badVal => none

/-- The ids of all rows via `int(row.get("id", 0))`; `none` as soon as one
conversion raises. -/
def idsOf : List Row → Option (List Int)
  | [] => some []
  | r :: rs =>
    match rowIdInt r, idsOf rs with
    | some i, some is => some (i :: is)
    | _, _ => none

/-- `next_id(records)`: `1` for an empty list, otherwise
`max(int(record.get("id", 0)) for record in records) + 1` (Python's `max`
folds the comparison left over the generator); `none` models a raised
conversion error. -/
def next_id : List Row → Option Int
  | [] => some 1
  | r :: rs =>
    match rowIdInt r, idsOf rs with
    | some i, some is => some (is.foldl max i + 1)
    | _, _ => none

/-- Loop of `persist_email_status`: walk the rows, skip rows whose id
conversion raises (`try/except: continue`), stop at the first row whose id
equals `record_id` and replace its `email_notification`; `none` when no row
matches (`updated` stays false). -/
def patch_scan (record_id : Int) (en : EmailNotification) : List Row → Option (List Row)
  | [] => none
  | row :: rest =>
    match rowIdInt row with
    | none => (patch_scan record_id en rest).map (row :: ·)
    | some n =>
      if n = record_id then some ({row with email_notification := some en} :: rest)
      else (patch_scan record_id en rest).map (row :: ·)

/-- The `email_notification` object written by `persist_email_status`:
`{"sent": sent, "error": "" if sent else error, "updated_at": utc_now_iso()}`. -/
def emailStatusObj (sent : Bool) (error : String) (now : String) : EmailNotification :=
  { sent := some sent, error := if sent then "" else error, updated_at := now }

/-- `persist_email_status(path, record_id, sent, error)`: returns the stored
rows after the call, and whether `write_json` was performed. -/
def persist_email_status (records : List Row) (record_id : Int) (sent : Bool)
    (error : String) (now : String) : List Row × Bool :=
  match patch_scan record_id (emailStatusObj sent error now) records with
  | some updatedRows => (updatedRows, true)
  | none => (records, false)

/-- Outcome flashed by the admin status-update handlers; `serverError`
models an exception propagating out of the handler (HTTP 500). -/
inductive StatusResult where
  | updated
  | notFound
  | invalidStatus
  | serverError
deriving DecidableEq

/-- Loop of the admin status updates: walk the rows, stop at the first row
with `int(row.get("id", 0)) == target` and overwrite its `status`; the outer
`none` models the uncaught exception raised by a non-numeric id, and
`some none` means no row matched (`updated` stays false, no write). -/
def set_status_scan (target : Int) (status : String) : List Row → Option (Option (List Row))
  | [] => some none
  | row :: rest =>
    match rowIdInt row with
    | none => none
    | some n =>
      if n = target then some (some ({row with status := status} :: rest))
      else (set_status_scan target status rest).map (Option.map (row :: ·))

/-- Allowed reservation statuses (`admin_update_reservation_status`). -/
def reservationAllowed : List String := ["new", "confirmed", "completed", "cancelled"]

/-- Allowed order statuses (`admin_update_order_status`). -/
def orderAllowed : List String := ["new", "accepted", "preparing", "ready", "completed", "cancelled"]

/-- Validate-locate-overwrite core shared by both admin status handlers (the
spec's `set_status`): membership check against the allowed set, then the
scan-and-write-back under the lock. Returns the flashed outcome and the
stored rows after the call. -/
def set_status (allowed : List String) (records : List Row) (target : Int)
    (status : String) : StatusResult × List Row :=
  if allowed.contains status then
    match set_status_scan target status records with
    | none => (StatusResult.serverError, records)
    | some none => (StatusResult.notFound, records)
    | some (some updatedRows) => (StatusResult.updated, updatedRows)
  else (StatusResult.invalidStatus, records)

/-- `admin_update_reservation_status(reservation_id)`: `statusField` is
`request.form.get("status")` (`none` when the field is absent, defaulted to
`"new"`), normalized by `.strip().lower()` before validation. -/
def admin_update_reservation_status (records : List Row) (reservation_id : Int)
    (statusField : Option String) : StatusResult × List Row :=
  set_status reservationAllowed records reservation_id
    (pyLower (pyStrip (statusField.getD "new")))

/-- `admin_update_order_status(order_id)`: same shape as the reservation
handler with the order status enum. -/
def admin_update_order_status (records : List Row) (order_id : Int)
    (statusField : Option String) : StatusResult × List Row :=
  set_status orderAllowed records order_id
    (pyLower (pyStrip (statusField.getD "new")))

/-- Request payload as produced by `parse_request_payload()`: a string-keyed
dictionary. Only the keys the handlers read are modeled; a field is `none`
when the key is absent. (Values are modeled as strings; the handlers apply
`str(...)` before validating.) -/
structure Payload where
  full_name : Option String := none
  email : Option String := none
  phone : Option String := none
  reservation_date : Option String := none
  reservation_time : Option String := none
  guests : Option String := none
  occasion : Option String := none
  notes : Option String := none
  pickup_time : Option String := none
  order_details : Option String := none
deriving DecidableEq

/-- Dictionary lookup `payload.get(key)`. -/
def pfield (p : Payload) : String → Option String
  | "full_name" => p.full_name
  | "email" => p.email
  | "phone" => p.phone
  | "reservation_date" => p.reservation_date
  | "reservation_time" => p.reservation_time
  | "guests" => p.guests
  | "occasion" => p.occasion
  | "notes" => p.notes
  | "pickup_time" => p.pickup_time
  | "order_details" => p.order_details
  | _ => none

/-- `payload.get(key, "")`: absent keys read as the empty string. -/
def pgetD (p : Payload) (key : String) : String := (pfield p key).getD ""

/-- Required fields checked by `api_create_reservation`, in source order. -/
def reservationRequiredFields : List String :=
  ["full_name", "email", "phone", "reservation_date", "reservation_time", "guests"]

/-- Required fields checked by `api_create_order`, in source order. -/
def orderRequiredFields : List String :=
  ["full_name", "phone", "pickup_time", "order_details"]

/-- JSON response of the API submission handlers: the `ok` and `message`
body fields, the optional `email_sent` body field, and the HTTP status
code. -/
structure Resp where
  ok : Bool
  message : String
  email_sent : Option Bool
  statusCode : Nat
deriving DecidableEq

/-- The reservation record built inside `api_create_reservation` (domain
fields trimmed in source order, `status = "new"`, stamped `created_at`, and
`email_notification` initialized with `sent = None`). -/
def mkReservationRow (now : String) (p : Payload) (rid : Int) : Row :=
  { idv := some (IdVal.intVal rid),
    fields :=
      [("full_name", pyStrip (pgetD p "full_name")),
       ("email", pyStrip (pgetD p "email")),
       ("phone", pyStrip (pgetD p "phone")),
       ("reservation_date", pyStrip (pgetD p "reservation_date")),
       ("reservation_time", pyStrip (pgetD p "reservation_time")),
       ("guests", pyStrip (pgetD p "guests")),
       ("occasion", pyStrip (pgetD p "occasion")),
       ("notes", pyStrip (pgetD p "notes"))],
    status := "new",
    created_at := now,
    email_notification := some { sent := none, error := "", updated_at := now } }

/-- The order record built inside `api_create_order`. -/
def mkOrderRow (now : String) (p : Payload) (rid : Int) : Row :=
  { idv := some (IdVal.intVal rid),
    fields :=
      [("full_name", pyStrip (pgetD p "full_name")),
       ("email", pyStrip (pgetD p "email")),
       ("phone", pyStrip (pgetD p "phone")),
       ("pickup_time", pyStrip (pgetD p "pickup_time")),
       ("order_details", pyStrip (pgetD p "order_details")),
       ("notes", pyStrip (pgetD p "notes"))],
    status := "new",
    created_at := now,
    email_notification := some { sent := none, error := "", updated_at := now } }

/-- `api_create_reservation`. Inputs beyond the parsed payload and the
stored rows: `emailSent`/`emailError` are the pair returned by
`send_notification_email` (modeled separately); `writeOk` is whether the
`write_json` of the appended list succeeds (`false` = `OSError`, caught and
answered with the 500 "try again" response); `patchOk` is whether the write
inside `persist_email_status` succeeds (its `OSError` is caught and only
logged). Returns the HTTP response and the stored rows after the call. -/
def api_create_reservation (now : String) (p : Payload) (stored : List Row)
    (emailSent : Bool) (emailError : String) (writeOk : Bool) (patchOk : Bool) :
    Resp × List Row :=
  match reservationRequiredFields.find? (fun f => pyStrip (pgetD p f) == "") with
  | some f =>
    ({ ok := false, message := "Missing required field: " ++ f,
       email_sent := none, statusCode := 400 }, stored)
  | none =>
    match next_id stored with
    | none =>
      ({ ok := false, message := "Internal server error",
         email_sent := none, statusCode := 500 }, stored)
    | some rid =>
      if writeOk then
        let stored1 := stored ++ [mkReservationRow now p rid]
        let stored2 :=
          if patchOk then (persist_email_status stored1 rid emailSent emailError now).1
          else stored1
        if emailSent then
          ({ ok := true, message := "Reservation request received.",
             email_sent := none, statusCode := 201 }, stored2)
        else
          ({ ok := true,
             message := "Reservation saved, but email notification failed. Check admin panel inbox.",
             email_sent := some false, statusCode := 201 }, stored2)
      else
        ({ ok := false, message := "Unable to save reservation right now. Please try again.",
           email_sent := none, statusCode := 500 }, stored)

/-- `api_create_order`, with the same conventions as
`api_create_reservation`. -/
def api_create_order (now : String) (p : Payload) (stored : List Row)
    (emailSent : Bool) (emailError : String) (writeOk : Bool) (patchOk : Bool) :
    Resp × List Row :=
  match orderRequiredFields.find? (fun f => pyStrip (pgetD p f) == "") with
  | some f =>
    ({ ok := false, message := "Missing required field: " ++ f,
       email_sent := none, statusCode := 400 }, stored)
  | none =>
    match next_id stored with
    | none =>
      ({ ok := false, message := "Internal server error",
         email_sent := none, statusCode := 500 }, stored)
    | some rid =>
      if writeOk then
        let stored1 := stored ++ [mkOrderRow now p rid]
        let stored2 :=
          if patchOk then (persist_email_status stored1 rid emailSent emailError now).1
          else stored1
        if emailSent then
          ({ ok := true, message := "Order request received.",
             email_sent := none, statusCode := 201 }, stored2)
        else
          ({ ok := true,
             message := "Order saved, but email notification failed. Check admin panel inbox.",
             email_sent := some false, statusCode := 201 }, stored2)
      else
        ({ ok := false, message := "Unable to save order right now. Please try again.",
           email_sent := none, statusCode := 500 }, stored)

/-- Run a sequence of appends (the `with write_lock` block of the create
handlers: `next_id`, build the record, append, write), starting from
`stored`, collecting each assigned id in order; an append whose id
computation raises aborts the run. `mk` is the record builder of the
collection. -/
def run_appends (mk : Payload → Int → Row) (stored : List Row) :
    List Payload → List Row × List Int
  | [] => (stored, [])
  | p :: ps =>
    match next_id stored with
    | none => (stored, [])
    | some rid =>
      let rest := run_appends mk (stored ++ [mk p rid]) ps
      (rest.1, rid :: rest.2)

/-- SMTP configuration dictionary assembled by `smtp_config()`. -/
structure SmtpConfig where
  host : String
  user : String
  password : String
  toAddr : String
  fromAddr : String
  port : Int
  use_ssl : Bool
  use_tls : Bool
deriving DecidableEq

/-- `parse_env_bool(name, default)` over an environment `env` mapping
variable names to their values (`none` when unset). -/
def parse_env_bool (env : String → Option String) (name : String) (dflt : Bool) : Bool :=
  match env name with
  | none => dflt
  | some v => ["1", "true", "yes", "on"].contains (pyLower (pyStrip v))

/-- Python `repr` of a simple string (single quotes; escaping of special
characters inside the string is not modeled). -/
def pyRepr (s : String) : String := "'" ++ s ++ "'"

/-- `smtp_config()`: the parsed configuration (`none` when `SMTP_PORT` is
invalid), the list of missing required setting names, and the configuration
error message. -/
def smtp_config (env : String → Option String) :
    Option SmtpConfig × List String × Option String :=
  let smtp_host := pyStrip ((env "SMTP_HOST").getD "")
  let smtp_user := pyStrip ((env "SMTP_USER").getD "")
  let smtp_password := (env "SMTP_PASSWORD").getD ""
  let smtp_to := pyStrip ((env "NOTIFY_TO_EMAIL").getD "")
  let smtp_from := pyStrip ((env "NOTIFY_FROM_EMAIL").getD smtp_user)
  let smtp_use_ssl := parse_env_bool env "SMTP_USE_SSL" false
  let smtp_use_tls := parse_env_bool env "SMTP_USE_TLS" (!smtp_use_ssl)
  let raw_port := pyStrip ((env "SMTP_PORT").getD "587")
  match pyParseInt raw_port with
  | none => (none, [], some ("Invalid SMTP_PORT value: " ++ pyRepr raw_port))
  | some smtp_port =>
    let missing :=
      (if smtp_host = "" then ["SMTP_HOST"] else []) ++
      (if smtp_user = "" then ["SMTP_USER"] else []) ++
      (if smtp_password = "" then ["SMTP_PASSWORD"] else []) ++
      (if smtp_to = "" then ["NOTIFY_TO_EMAIL"] else []) ++
      (if smtp_from = "" then ["NOTIFY_FROM_EMAIL"] else [])
    (some { host := smtp_host, user := smtp_user, password := smtp_password,
            toAddr := smtp_to, fromAddr := smtp_from, port := smtp_port,
            use_ssl := smtp_use_ssl, use_tls := smtp_use_tls }, missing, none)

/-- Result of `send_notification_email`: the returned `(sent, error)` pair,
plus whether an SMTP connection was attempted at all. -/
structure NotifyResult where
  delivered : Bool
  error : String
  attempted : Bool
deriving DecidableEq

/-- `send_notification_email(subject, body)`. `transport` abstracts the SMTP
session of the `try` block: `none` when connection, login and send all
succeed, `some e` when any exception with message `e` is raised during the
attempt (caught by the handler and returned). -/
def send_notification_email (env : String → Option String)
    (transport : Option String) : NotifyResult :=
  match smtp_config env with
  | (_, _, some configError) =>
    { delivered := false, error := configError, attempted := false }
  | (_, missing, none) =>
    if missing.isEmpty then
      match transport with
      | some e => { delivered := false, error := e, attempted := true }
      | none => { delivered := true, error := "", attempted := true }
    else
      { delivered := false,
        error := "Missing SMTP config environment variables: " ++ String.intercalate ", " missing,
        attempted := false }

/-- Sample row with a numeric id, for concrete instantiations. -/
def sampleRow (n : Int) : Row :=
  { idv := some (IdVal.intVal n), fields := [("full_name", "A Diner")],
    status := "new", created_at := "2024-07-01T00:00:00+00:00",
    email_notification := none }

/-- Sample row whose id is a non-numeric value. -/
def sampleBadRow : Row :=
  { idv := some IdVal.badVal, fields := [("full_name", "B Diner")],
    status := "new", created_at := "2024-07-01T00:00:00+00:00",
    email_notification := none }

/-- Sample reservation payload. -/
def samplePayloadRes : Payload :=
  { full_name := some "A Diner", email := some "a@example.com",
    phone := some "555-1111", reservation_date := some "2024-07-01",
    reservation_time := some "19:00", guests := some "2" }

/-- Sample order payload. -/
def samplePayloadOrd : Payload :=
  { full_name := some "B Diner", phone := some "555-2222",
    pickup_time := some "18:00", order_details := some "2x pasta" }

/-! Helper lemmas about folded maxima and row ids. -/

theorem foldl_max_bounds (l : List Int) : ∀ a : Int,
    a ≤ l.foldl max a ∧ ∀ n ∈ l, n ≤ l.foldl max a := by
  induction l with
  | nil => intro a; simp
  | cons x xs ih =>
    intro a
    have h := ih (max a x)
    refine ⟨le_trans (le_max_left a x) h.1, ?_⟩
    intro n hn
    rcases List.mem_cons.mp hn with rfl | hmem
    · exact le_trans (le_max_right a n) h.1
    · exact h.2 n hmem

theorem foldl_max_mem (l : List Int) : ∀ a : Int,
    l.foldl max a = a ∨ l.foldl max a ∈ l := by
  induction l with
  | nil => intro a; simp
  | cons x xs ih =>
    intro a
    rcases ih (max a x) with h | h
    · rcases max_cases a x with ⟨hm, _⟩ | ⟨hm, _⟩
      · left; simpa [List.foldl_cons, hm] using h
      · right; simp only [List.foldl_cons]; rw [h, hm]; exact List.mem_cons_self x xs
    · right; exact List.mem_cons_of_mem x h

theorem idsOf_eq_nil (st : List Row) (h : idsOf st = some []) : st = [] := by
  cases st with
  | nil => rfl
  | cons r rs =>
    exfalso
    cases h1 : rowIdInt r <;> cases h2 : idsOf rs <;> simp [idsOf, h1, h2] at h

theorem idsOf_cons (r : Row) (rs : List Row) (i : Int) (is : List Int)
    (h1 : rowIdInt r = some i) (h2 : idsOf rs = some is) :
    idsOf (r :: rs) = some (i :: is) := by
  simp [idsOf, h1, h2]

theorem idsOf_cons_inv (r : Row) (rs : List Row) (l : List Int)
    (h : idsOf (r :: rs) = some l) :
    ∃ i is, rowIdInt r = some i ∧ idsOf rs = some is ∧ l = i :: is := by
  cases h1 : rowIdInt r <;> cases h2 : idsOf rs <;>
    simp [idsOf, h1, h2] at h
  exact ⟨_, _, rfl, rfl, h.symm⟩

theorem idsOf_append_one (st : List Row) (r : Row) :
    ∀ (l : List Int) (n : Int), idsOf st = some l → rowIdInt r = some n →
      idsOf (st ++ [r]) = some (l ++ [n]) := by
  induction st with
  | nil =>
    intro l n hl hn
    have : l = [] := by simpa [idsOf] using hl.symm
    subst this
    simp [idsOf, hn]
  | cons x xs ih =>
    intro l n hl hn
    obtain ⟨i, is, h1, h2, rfl⟩ := idsOf_cons_inv x xs l hl
    have := ih is n h2 hn
    simp [idsOf, h1, this]

theorem idsOf_mem (rs : List Row) : ∀ (as : List Int), idsOf rs = some as →
    ∀ x ∈ rs, ∃ n, rowIdInt x = some n ∧ n ∈ as := by
  induction rs with
  | nil => intro as _ x hx; exact absurd hx (List.not_mem_nil x)
  | cons r rest ih =>
    intro as h x hx
    obtain ⟨i, is, h1, h2, rfl⟩ := idsOf_cons_inv r rest as h
    rcases List.mem_cons.mp hx with rfl | hmem
    · exact ⟨i, h1, List.mem_cons_self i is⟩
    · obtain ⟨n, hn, hmem2⟩ := ih is h2 x hmem
      exact ⟨n, hn, List.mem_cons_of_mem i hmem2⟩

theorem next_id_of_idsOf (records : List Row) (i : Int) (is : List Int)
    (h : idsOf records = some (i :: is)) :
    next_id records = some (is.foldl max i + 1) := by
  cases records with
  | nil => simp [idsOf] at h
  | cons r rs =>
    obtain ⟨j, js, h1, h2, heq⟩ := idsOf_cons_inv r rs (i :: is) h
    cases heq
    simp [next_id, h1, h2]

/-- The id assigned by `next_id` is strictly greater than every id already
present (every row converts, since a failing conversion makes `next_id`
raise). -/
theorem next_id_gt (records : List Row) (i : Int) (h : next_id records = some i) :
    ∀ r ∈ records, ∃ n, rowIdInt r = some n ∧ n < i := by
  cases records with
  | nil => intro r hr; exact absurd hr (List.not_mem_nil r)
  | cons x xs =>
    intro r hr
    cases h1 : rowIdInt x with
    | none => simp [next_id, h1] at h
    | some a =>
      cases h2 : idsOf xs with
      | none => simp [next_id, h1, h2] at h
      | some as =>
        simp only [next_id, h1, h2, Option.some.injEq] at h
        subst h
        have hb := foldl_max_bounds as a
        rcases List.mem_cons.mp hr with rfl | hmem
        · exact ⟨a, h1, by have := hb.1; omega⟩
        · obtain ⟨n, hn, hmem2⟩ := idsOf_mem xs as h2 r hmem
          exact ⟨n, hn, by have := hb.2 n hmem2; omega⟩

/-! Helper lemmas about the update scans. -/

theorem patch_scan_none (record_id : Int) (en : EmailNotification) :
    ∀ rows : List Row, (∀ x ∈ rows, rowIdInt x ≠ some record_id) →
      patch_scan record_id en rows = none := by
  intro rows
  induction rows with
  | nil => intro _; rfl
  | cons r rest ih =>
    intro h
    have hr := h r (List.mem_cons_self r rest)
    have hrest := ih (fun x hx => h x (List.mem_cons_of_mem r hx))
    cases h1 : rowIdInt r with
    | none => simp [patch_scan, h1, hrest]
    | some n =>
      have : n ≠ record_id := fun hc => hr (by rw [h1, hc])
      simp [patch_scan, h1, this, hrest]

theorem patch_scan_found (record_id : Int) (en : EmailNotification)
    (r : Row) (post : List Row) (hr : rowIdInt r = some record_id) :
    ∀ pre : List Row, (∀ x ∈ pre, rowIdInt x ≠ some record_id) →
      patch_scan record_id en (pre ++ r :: post)
        = some (pre ++ {r with email_notification := some en} :: post) := by
  intro pre
  induction pre with
  | nil => intro _; simp [patch_scan, hr]
  | cons x xs ih =>
    intro h
    have hx := h x (List.mem_cons_self x xs)
    have hrest := ih (fun y hy => h y (List.mem_cons_of_mem x hy))
    cases h1 : rowIdInt x with
    | none => simp [patch_scan, h1, hrest]
    | some n =>
      have : n ≠ record_id := fun hc => hx (by rw [h1, hc])
      simp [patch_scan, h1, this, hrest]

theorem set_status_scan_notFound (target : Int) (status : String) :
    ∀ rows : List Row, (∀ x ∈ rows, ∃ n, rowIdInt x = some n ∧ n ≠ target) →
      set_status_scan target status rows = some none := by
  intro rows
  induction rows with
  | nil => intro _; rfl
  | cons r rest ih =>
    intro h
    obtain ⟨n, hn, hne⟩ := h r (List.mem_cons_self r rest)
    have hrest := ih (fun x hx => h x (List.mem_cons_of_mem r hx))
    simp [set_status_scan, hn, hne, hrest]

theorem set_status_scan_found (target : Int) (status : String)
    (r : Row) (post : List Row) (hr : rowIdInt r = some target) :
    ∀ pre : List Row, (∀ x ∈ pre, ∃ n, rowIdInt x = some n ∧ n ≠ target) →
      set_status_scan target status (pre ++ r :: post)
        = some (some (pre ++ {r with status := status} :: post)) := by
  intro pre
  induction pre with
  | nil => intro _; simp [set_status_scan, hr]
  | cons x xs ih =>
    intro h
    obtain ⟨n, hn, hne⟩ := h x (List.mem_cons_self x xs)
    have hrest := ih (fun y hy => h y (List.mem_cons_of_mem x hy))
    simp [set_status_scan, hn, hne, hrest]

theorem set_status_scan_raises (target : Int) (status : String)
    (bad : Row) (rest : List Row) (hbad : rowIdInt bad = none) :
    ∀ pre : List Row, (∀ x ∈ pre, ∃ n, rowIdInt x = some n ∧ n ≠ target) →
      set_status_scan target status (pre ++ bad :: rest) = none := by
  intro pre
  induction pre with
  | nil => intro _; simp [set_status_scan, hbad]
  | cons x xs ih =>
    intro h
    obtain ⟨n, hn, hne⟩ := h x (List.mem_cons_self x xs)
    have hrest := ih (fun y hy => h y (List.mem_cons_of_mem x hy))
    simp [set_status_scan, hn, hne, hrest]

/-- A `find?` over a list with a witness yields some hit. -/
theorem find?_of_exists {α : Type} (q : α → Bool) :
    ∀ l : List α, (∃ x ∈ l, q x = true) → ∃ y, l.find? q = some y := by
  intro l
  induction l with
  | nil => rintro ⟨x, hx, _⟩; exact absurd hx (List.not_mem_nil x)
  | cons a as ih =>
    rintro ⟨x, hx, hq⟩
    cases hqa : q a with
    | true => exact ⟨a, by simp [List.find?, hqa]⟩
    | false =>
      rcases List.mem_cons.mp hx with rfl | hmem
      · exact absurd hq (by simp [hqa])
      · obtain ⟨y, hy⟩ := ih ⟨x, hmem, hq⟩
        exact ⟨y, by simp [List.find?, hqa, hy]⟩

theorem foldl_max_eq (l : List Int) (a m : Int)
    (hmem : m = a ∨ m ∈ l) (hub : a ≤ m) (hub2 : ∀ n ∈ l, n ≤ m) :
    l.foldl max a = m := by
  have h1 := foldl_max_bounds l a
  have h2 := foldl_max_mem l a
  have hle : l.foldl max a ≤ m := by
    rcases h2 with he | hm
    · omega
    · exact hub2 _ hm
  have hge : m ≤ l.foldl max a := by
    rcases hmem with rfl | hm
    · exact h1.1
    · exact h1.2 m hm
  omega

/-- The integer list `[1, ..., n]`. -/
def seqIds (n : Nat) : List Int := (List.range n).map (fun (j : Nat) => (j : Int) + 1)

theorem seqIds_succ (n : Nat) : seqIds (n + 1) = seqIds n ++ [(n : Int) + 1] := by
  simp [seqIds, List.range_succ]

theorem seqIds_cons (n : Nat) :
    seqIds (n + 1) = 1 :: (List.range n).map (fun (j : Nat) => (j : Int) + 2) := by
  rw [seqIds, List.range_succ_eq_map, List.map_cons, List.map_map]
  refine congrArg₂ _ (by norm_num) ?_
  refine List.map_congr_left (fun a _ => ?_)
  simp only [Function.comp_apply]
  push_cast
  ring

theorem mem_seqIds (n : Nat) (x : Int) : x ∈ seqIds n ↔ 1 ≤ x ∧ x ≤ n := by
  simp only [seqIds, List.mem_map, List.mem_range]
  constructor
  · rintro ⟨j, hj, rfl⟩; omega
  · intro hx
    exact ⟨(x - 1).toNat, by omega, by omega⟩

/-- `next_id` on a store whose ids are exactly `1..k` in order yields
`k + 1`. -/
theorem next_id_seq (stored : List Row) (k : Nat)
    (h : idsOf stored = some (seqIds k)) :
    next_id stored = some ((k : Int) + 1) := by
  cases k with
  | zero =>
    have : stored = [] := idsOf_eq_nil stored (by simpa [seqIds] using h)
    subst this
    simp [next_id]
  | succ m =>
    rw [seqIds_cons] at h
    rw [next_id_of_idsOf stored 1 _ h]
    have hmax : ((List.range m).map (fun (j : Nat) => (j : Int) + 2)).foldl max 1
        = (m : Int) + 1 := by
      apply foldl_max_eq
      · cases m with
        | zero => left; norm_num
        | succ m2 =>
          right
          simp only [List.mem_map, List.mem_range]
          exact ⟨m2, by omega, by push_cast; ring⟩
      · omega
      · intro n hn
        simp only [List.mem_map, List.mem_range] at hn
        obtain ⟨j, hj, rfl⟩ := hn
        omega
    rw [hmax]
    push_cast
    ring_nf

/-- Ids assigned by a run of appends over a store already holding ids
`1..k` in order: the next `ps.length` ids in sequence. -/
theorem run_appends_ids (mk : Payload → Int → Row)
    (hmk : ∀ p i, rowIdInt (mk p i) = some i) :
    ∀ (ps : List Payload) (stored : List Row) (k : Nat),
      idsOf stored = some (seqIds k) →
      (run_appends mk stored ps).2
        = (List.range ps.length).map (fun (j : Nat) => ((k + j + 1 : Nat) : Int)) := by
  intro ps
  induction ps with
  | nil => intro stored k h; simp [run_appends]
  | cons p ps ih =>
    intro stored k h
    have hnext := next_id_seq stored k h
    have happ : idsOf (stored ++ [mk p ((k : Int) + 1)]) = some (seqIds (k + 1)) := by
      rw [idsOf_append_one stored (mk p ((k : Int) + 1)) _ _ h (hmk p _), seqIds_succ]
    have hrec := ih (stored ++ [mk p ((k : Int) + 1)]) (k + 1) happ
    simp only [run_appends, hnext]
    rw [hrec, List.length_cons, List.range_succ_eq_map, List.map_cons, List.map_map]
    refine congrArg₂ _ (by push_cast; ring) ?_
    refine List.map_congr_left (fun a _ => ?_)
    simp only [Function.comp_apply]
    push_cast
    ring

/-- C1: a sequence of N successful appends to an initially empty collection
(reservations or orders) assigns record ids exactly `1..N` in submission
order; in general `next_id` yields the maximum of the already stored ids
plus one, and `1` on an empty collection. -/
theorem c1_sequential_ids :
    (∀ (now : String) (ps : List Payload),
      (run_appends (mkReservationRow now) [] ps).2 = seqIds ps.length)
  ∧ (∀ (now : String) (ps : List Payload),
      (run_appends (mkOrderRow now) [] ps).2 = seqIds ps.length)
  ∧ next_id [] = some 1
  ∧ (∀ (records : List Row) (ids : List Int), idsOf records = some ids →
      records ≠ [] →
      ∃ m, m ∈ ids ∧ (∀ n ∈ ids, n ≤ m) ∧ next_id records = some (m + 1)) := by
  have hrun : ∀ (mk : Payload → Int → Row), (∀ p i, rowIdInt (mk p i) = some i) →
      ∀ ps : List Payload, (run_appends mk [] ps).2 = seqIds ps.length := by
    intro mk hmk ps
    rw [run_appends_ids mk hmk ps [] 0 (by simp [idsOf, seqIds]), seqIds]
    refine List.map_congr_left (fun a _ => ?_)
    push_cast
    ring
  refine ⟨fun now => hrun _ (fun p i => rfl), fun now => hrun _ (fun p i => rfl), rfl, ?_⟩
  intro records ids hids hne
  cases records with
  | nil => exact absurd rfl hne
  | cons r rs =>
    obtain ⟨i, is, h1, h2, rfl⟩ := idsOf_cons_inv r rs ids hids
    refine ⟨is.foldl max i, ?_, ?_, next_id_of_idsOf _ i is hids⟩
    · rcases foldl_max_mem is i with he | hm
      · rw [he]; exact List.mem_cons_self i is
      · exact List.mem_cons_of_mem i hm
    · intro n hn
      have hb := foldl_max_bounds is i
      rcases List.mem_cons.mp hn with rfl | hmem
      · exact hb.1
      · exact hb.2 n hmem

/-- Concrete instantiation of `c1_sequential_ids`. -/
theorem c1_sequential_ids_witness :
    (run_appends (mkReservationRow "t") []
      [samplePayloadRes, samplePayloadRes, samplePayloadRes]).2 = [1, 2, 3]
  ∧ (run_appends (mkOrderRow "t") [] [samplePayloadOrd, samplePayloadOrd]).2 = [1, 2]
  ∧ ∃ m, m ∈ ([5, 2] : List Int) ∧ (∀ n ∈ ([5, 2] : List Int), n ≤ m)
      ∧ next_id [sampleRow 5, sampleRow 2] = some (m + 1) := by
  refine ⟨?_, ?_, ?_⟩
  · rw [c1_sequential_ids.1 "t" _]; decide
  · rw [c1_sequential_ids.2.1 "t" _]; decide
  · exact c1_sequential_ids.2.2.2 [sampleRow 5, sampleRow 2] [5, 2] (by decide) (by decide)


/-- C5: `persist_email_status` overwrites exactly the matched record's
`email_notification` with `{sent, error: "" if sent else error, updated_at:
now}` and writes the full sequence back; when no record has the given id it
performs no write and leaves the stored content unchanged. -/
theorem c5_patch_notification :
    (∀ (pre post : List Row) (r : Row) (rid : Int) (sent : Bool) (err now : String),
      (∀ x ∈ pre, rowIdInt x ≠ some rid) → rowIdInt r = some rid →
      persist_email_status (pre ++ r :: post) rid sent err now
        = (pre ++ {r with email_notification := some (emailStatusObj sent err now)} :: post,
           true))
  ∧ (∀ (rows : List Row) (rid : Int) (sent : Bool) (err now : String),
      (∀ x ∈ rows, rowIdInt x ≠ some rid) →
      persist_email_status rows rid sent err now = (rows, false)) := by
  constructor
  · intro pre post r rid sent err now hpre hr
    unfold persist_email_status
    rw [patch_scan_found rid _ r post hr pre hpre]
  · intro rows rid sent err now h
    unfold persist_email_status
    rw [patch_scan_none rid _ rows h]

/-- Concrete instantiation of `c5_patch_notification`. -/
theorem c5_patch_notification_witness :
    persist_email_status [sampleRow 1, sampleRow 3] 3 false "boom" "t"
      = ([sampleRow 1,
          { sampleRow 3 with email_notification := some (emailStatusObj false "boom" "t") }],
         true)
  ∧ persist_email_status [sampleRow 1] 7 true "" "t" = ([sampleRow 1], false) := by
  constructor
  · exact c5_patch_notification.1 [sampleRow 1] [] (sampleRow 3) 3 false "boom" "t"
      (by decide) (by decide)
  · exact c5_patch_notification.2 [sampleRow 1] 7 true "" "t" (by decide)

/-- C6: `persist_email_status` is total in the presence of malformed data —
rows whose id is non-numeric are skipped without failing, and a well-formed
matching record after them is still patched; a store of only malformed rows
yields a no-op rather than an error. -/
theorem c6_patch_tolerates_malformed :
    (∀ (pre post : List Row) (r : Row) (rid : Int) (sent : Bool) (err now : String),
      (∀ x ∈ pre, rowIdInt x = none) → rowIdInt r = some rid →
      persist_email_status (pre ++ r :: post) rid sent err now
        = (pre ++ {r with email_notification := some (emailStatusObj sent err now)} :: post,
           true))
  ∧ (∀ (rows : List Row) (rid : Int) (sent : Bool) (err now : String),
      (∀ x ∈ rows, rowIdInt x = none) →
      persist_email_status rows rid sent err now = (rows, false)) := by
  constructor
  · intro pre post r rid sent err now hpre hr
    unfold persist_email_status
    rw [patch_scan_found rid _ r post hr pre (fun x hx => by rw [hpre x hx]; simp)]
  · intro rows rid sent err now h
    unfold persist_email_status
    rw [patch_scan_none rid _ rows (fun x hx => by rw [h x hx]; simp)]

/-- Concrete instantiation of `c6_patch_tolerates_malformed`. -/
theorem c6_patch_tolerates_malformed_witness :
    persist_email_status [sampleBadRow, sampleRow 3] 3 true "" "t"
      = ([sampleBadRow,
          { sampleRow 3 with email_notification := some (emailStatusObj true "" "t") }],
         true)
  ∧ persist_email_status [sampleBadRow] 3 true "" "t" = ([sampleBadRow], false) := by
  constructor
  · exact c6_patch_tolerates_malformed.1 [sampleBadRow] [] (sampleRow 3) 3 true "" "t"
      (by decide) (by decide)
  · exact c6_patch_tolerates_malformed.2 [sampleBadRow] 3 true "" "t" (by decide)

/-- C4: `set_status` (the shared core of both admin handlers, applied to the
collection's allowed enum) reports `invalidStatus` with no write when the
status is outside the enum; reports `notFound` with no write when the status
is valid but no record has the given id; and with a valid status and a
matching record overwrites exactly that record's `status` field, writing the
full sequence back. -/
theorem c4_set_status :
    (∀ (allowed : List String) (records : List Row) (rid : Int) (st : String),
      allowed.contains st = false →
      set_status allowed records rid st = (StatusResult.invalidStatus, records))
  ∧ (∀ (allowed : List String) (records : List Row) (rid : Int) (st : String),
      allowed.contains st = true →
      (∀ x ∈ records, ∃ n, rowIdInt x = some n ∧ n ≠ rid) →
      set_status allowed records rid st = (StatusResult.notFound, records))
  ∧ (∀ (allowed : List String) (pre post : List Row) (r : Row) (rid : Int) (st : String),
      allowed.contains st = true →
      (∀ x ∈ pre, ∃ n, rowIdInt x = some n ∧ n ≠ rid) →
      rowIdInt r = some rid →
      set_status allowed (pre ++ r :: post) rid st
        = (StatusResult.updated, pre ++ {r with status := st} :: post)) := by
  refine ⟨?_, ?_, ?_⟩
  · intro allowed records rid st h
    unfold set_status
    rw [h]
    simp
  · intro allowed records rid st h hall
    unfold set_status
    rw [h, set_status_scan_notFound rid st records hall]
    simp
  · intro allowed pre post r rid st h hpre hr
    unfold set_status
    rw [h, set_status_scan_found rid st r post hr pre hpre]
    simp

/-- Concrete instantiation of `c4_set_status` at the two collection enums. -/
theorem c4_set_status_witness :
    set_status reservationAllowed [sampleRow 1] 1 "eaten"
      = (StatusResult.invalidStatus, [sampleRow 1])
  ∧ set_status orderAllowed [sampleRow 1] 2 "ready"
      = (StatusResult.notFound, [sampleRow 1])
  ∧ set_status reservationAllowed [sampleRow 1, sampleRow 2] 2 "confirmed"
      = (StatusResult.updated, [sampleRow 1, { sampleRow 2 with status := "confirmed" }]) := by
  refine ⟨?_, ?_, ?_⟩
  · exact c4_set_status.1 reservationAllowed [sampleRow 1] 1 "eaten" (by decide)
  · exact c4_set_status.2.1 orderAllowed [sampleRow 1] 2 "ready" (by decide) (by decide)
  · exact c4_set_status.2.2 reservationAllowed [sampleRow 1] [] (sampleRow 2) 2 "confirmed"
      (by decide) (by decide) (by decide)

/-- C10: the admin status updates, unlike the notification patch, do not
tolerate malformed ids — with a valid status, a row whose id is non-numeric
occurring before any row matching the target id makes the int conversion
raise, and the operation performs no write, leaving the stored collection
unchanged. -/
theorem c10_status_update_raises :
    (∀ (pre rest : List Row) (bad : Row) (rid : Int) (sf : Option String),
      reservationAllowed.contains (pyLower (pyStrip (sf.getD "new"))) = true →
      (∀ x ∈ pre, ∃ n, rowIdInt x = some n ∧ n ≠ rid) →
      rowIdInt bad = none →
      admin_update_reservation_status (pre ++ bad :: rest) rid sf
        = (StatusResult.serverError, pre ++ bad :: rest))
  ∧ (∀ (pre rest : List Row) (bad : Row) (rid : Int) (sf : Option String),
      orderAllowed.contains (pyLower (pyStrip (sf.getD "new"))) = true →
      (∀ x ∈ pre, ∃ n, rowIdInt x = some n ∧ n ≠ rid) →
      rowIdInt bad = none →
      admin_update_order_status (pre ++ bad :: rest) rid sf
        = (StatusResult.serverError, pre ++ bad :: rest)) := by
  constructor
  · intro pre rest bad rid sf h hpre hbad
    unfold admin_update_reservation_status set_status
    rw [h, set_status_scan_raises rid (pyLower (pyStrip (sf.getD "new"))) bad rest hbad pre hpre]
    simp
  · intro pre rest bad rid sf h hpre hbad
    unfold admin_update_order_status set_status
    rw [h, set_status_scan_raises rid (pyLower (pyStrip (sf.getD "new"))) bad rest hbad pre hpre]
    simp

/-- Concrete instantiation of `c10_status_update_raises`. -/
theorem c10_status_update_raises_witness :
    admin_update_reservation_status [sampleRow 1, sampleBadRow, sampleRow 2] 2 (some "confirmed")
      = (StatusResult.serverError, [sampleRow 1, sampleBadRow, sampleRow 2])
  ∧ admin_update_order_status [sampleBadRow] 1 (some "ready")
      = (StatusResult.serverError, [sampleBadRow]) := by
  constructor
  · exact c10_status_update_raises.1 [sampleRow 1] [sampleRow 2] sampleBadRow 2 (some "confirmed")
      (by decide) (by decide) (by decide)
  · exact c10_status_update_raises.2 [] [] sampleBadRow 1 (some "ready")
      (by decide) (by decide) (by decide)

/-- C2: when the record is successfully persisted (validation passed, the
append written), the handler answers 201 with `ok = true` regardless of the
notification outcome; when the email send fails the response still reports
success and carries the `email_sent: false` marker — the submission is never
rejected because of notification failure. -/
theorem c2_success_despite_notification :
    (∀ (now : String) (p : Payload) (stored : List Row) (es : Bool) (ee : String)
        (patchOk : Bool) (rid : Int),
      reservationRequiredFields.find? (fun f => pyStrip (pgetD p f) == "") = none →
      next_id stored = some rid →
      (api_create_reservation now p stored es ee true patchOk).1.ok = true
      ∧ (api_create_reservation now p stored es ee true patchOk).1.statusCode = 201
      ∧ (es = false →
          (api_create_reservation now p stored es ee true patchOk).1.email_sent = some false))
  ∧ (∀ (now : String) (p : Payload) (stored : List Row) (es : Bool) (ee : String)
        (patchOk : Bool) (rid : Int),
      orderRequiredFields.find? (fun f => pyStrip (pgetD p f) == "") = none →
      next_id stored = some rid →
      (api_create_order now p stored es ee true patchOk).1.ok = true
      ∧ (api_create_order now p stored es ee true patchOk).1.statusCode = 201
      ∧ (es = false →
          (api_create_order now p stored es ee true patchOk).1.email_sent = some false)) := by
  constructor
  · intro now p stored es ee patchOk rid hv hn
    unfold api_create_reservation
    rw [hv, hn]
    cases es <;> simp
  · intro now p stored es ee patchOk rid hv hn
    unfold api_create_order
    rw [hv, hn]
    cases es <;> simp

/-- Concrete instantiation of `c2_success_despite_notification`. -/
theorem c2_success_despite_notification_witness :
    (api_create_reservation "t" samplePayloadRes [] false "boom" true true).1.ok = true
  ∧ (api_create_reservation "t" samplePayloadRes [] false "boom" true true).1.statusCode = 201
  ∧ (api_create_reservation "t" samplePayloadRes [] false "boom" true true).1.email_sent = some false
  ∧ (api_create_order "t" samplePayloadOrd [] true "" true true).1.ok = true
  ∧ (api_create_order "t" samplePayloadOrd [] true "" true true).1.statusCode = 201 := by
  have h1 := c2_success_despite_notification.1 "t" samplePayloadRes [] false "boom" true 1
    (by decide) (by decide)
  have h2 := c2_success_despite_notification.2 "t" samplePayloadOrd [] true "" true 1
    (by decide) (by decide)
  exact ⟨h1.1, h1.2.1, h1.2.2 rfl, h2.1, h2.2.1⟩

/-- C3: a submission payload with a required field absent or empty after
trimming is rejected with a 400 response whose message cites a missing
field, and the stored collection is left completely unchanged. -/
theorem c3_validation_rejects :
    (∀ (now : String) (p : Payload) (stored : List Row) (es : Bool) (ee : String)
        (wOk pOk : Bool),
      (∃ f ∈ reservationRequiredFields, pyStrip (pgetD p f) = "") →
      (api_create_reservation now p stored es ee wOk pOk).2 = stored
      ∧ (api_create_reservation now p stored es ee wOk pOk).1.statusCode = 400
      ∧ (api_create_reservation now p stored es ee wOk pOk).1.ok = false
      ∧ ∃ f ∈ reservationRequiredFields, pyStrip (pgetD p f) = ""
          ∧ (api_create_reservation now p stored es ee wOk pOk).1.message
            = "Missing required field: " ++ f)
  ∧ (∀ (now : String) (p : Payload) (stored : List Row) (es : Bool) (ee : String)
        (wOk pOk : Bool),
      (∃ f ∈ orderRequiredFields, pyStrip (pgetD p f) = "") →
      (api_create_order now p stored es ee wOk pOk).2 = stored
      ∧ (api_create_order now p stored es ee wOk pOk).1.statusCode = 400
      ∧ (api_create_order now p stored es ee wOk pOk).1.ok = false
      ∧ ∃ f ∈ orderRequiredFields, pyStrip (pgetD p f) = ""
          ∧ (api_create_order now p stored es ee wOk pOk).1.message
            = "Missing required field: " ++ f) := by
  constructor
  · intro now p stored es ee wOk pOk hex
    obtain ⟨g, hg⟩ := find?_of_exists (fun f => pyStrip (pgetD p f) == "")
      reservationRequiredFields
      (by obtain ⟨f, hf, he⟩ := hex; exact ⟨f, hf, by simp [he]⟩)
    have hq : pyStrip (pgetD p g) = "" := by
      have := List.find?_some hg
      simpa using this
    have hmem : g ∈ reservationRequiredFields := List.mem_of_find?_eq_some hg
    unfold api_create_reservation
    rw [hg]
    exact ⟨rfl, rfl, rfl, g, hmem, hq, rfl⟩
  · intro now p stored es ee wOk pOk hex
    obtain ⟨g, hg⟩ := find?_of_exists (fun f => pyStrip (pgetD p f) == "")
      orderRequiredFields
      (by obtain ⟨f, hf, he⟩ := hex; exact ⟨f, hf, by simp [he]⟩)
    have hq : pyStrip (pgetD p g) = "" := by
      have := List.find?_some hg
      simpa using this
    have hmem : g ∈ orderRequiredFields := List.mem_of_find?_eq_some hg
    unfold api_create_order
    rw [hg]
    exact ⟨rfl, rfl, rfl, g, hmem, hq, rfl⟩

/-- Concrete instantiation of `c3_validation_rejects`: an order missing
`pickup_time` and a reservation whose `email` is whitespace. -/
theorem c3_validation_rejects_witness :
    ((api_create_order "t" { samplePayloadOrd with pickup_time := none } [sampleRow 1] true "" true true).2
        = [sampleRow 1]
      ∧ (api_create_order "t" { samplePayloadOrd with pickup_time := none } [sampleRow 1] true "" true true).1.statusCode = 400
      ∧ (api_create_order "t" { samplePayloadOrd with pickup_time := none } [sampleRow 1] true "" true true).1.ok = false
      ∧ ∃ f ∈ orderRequiredFields,
          pyStrip (pgetD { samplePayloadOrd with pickup_time := none } f) = ""
          ∧ (api_create_order "t" { samplePayloadOrd with pickup_time := none } [sampleRow 1] true "" true true).1.message
            = "Missing required field: " ++ f)
  ∧ ((api_create_reservation "t" { samplePayloadRes with email := some "  " } [] true "" true true).2 = []
      ∧ (api_create_reservation "t" { samplePayloadRes with email := some "  " } [] true "" true true).1.statusCode = 400
      ∧ (api_create_reservation "t" { samplePayloadRes with email := some "  " } [] true "" true true).1.ok = false
      ∧ ∃ f ∈ reservationRequiredFields,
          pyStrip (pgetD { samplePayloadRes with email := some "  " } f) = ""
          ∧ (api_create_reservation "t" { samplePayloadRes with email := some "  " } [] true "" true true).1.message
            = "Missing required field: " ++ f) := by
  constructor
  · exact c3_validation_rejects.2 "t" { samplePayloadOrd with pickup_time := none }
      [sampleRow 1] true "" true true ⟨"pickup_time", by decide, by decide⟩
  · exact c3_validation_rejects.1 "t" { samplePayloadRes with email := some "  " }
      [] true "" true true ⟨"email", by decide, by decide⟩

/-- C7: a successful append preserves every previously stored record
unchanged and in its original order, and grows the collection by exactly one
record appended at the end — for both collections and both outcomes of the
notification patch. -/
theorem c7_append_frame :
    (∀ (now : String) (p : Payload) (stored : List Row) (es pOk : Bool) (ee : String)
        (rid : Int),
      reservationRequiredFields.find? (fun f => pyStrip (pgetD p f) == "") = none →
      next_id stored = some rid →
      ∃ newRow, (api_create_reservation now p stored es ee true pOk).2 = stored ++ [newRow])
  ∧ (∀ (now : String) (p : Payload) (stored : List Row) (es pOk : Bool) (ee : String)
        (rid : Int),
      orderRequiredFields.find? (fun f => pyStrip (pgetD p f) == "") = none →
      next_id stored = some rid →
      ∃ newRow, (api_create_order now p stored es ee true pOk).2 = stored ++ [newRow]) := by
  constructor
  · intro now p stored es pOk ee rid hv hn
    have hpre : ∀ x ∈ stored, rowIdInt x ≠ some rid := by
      intro x hx hc
      obtain ⟨n, hn2, hlt⟩ := next_id_gt stored rid hn x hx
      rw [hn2] at hc
      simp only [Option.some.injEq] at hc
      omega
    unfold api_create_reservation
    rw [hv, hn]
    cases pOk with
    | false => cases es <;> exact ⟨mkReservationRow now p rid, by simp⟩
    | true =>
      refine ⟨{mkReservationRow now p rid with
        email_notification := some (emailStatusObj es ee now)}, ?_⟩
      have hps := patch_scan_found rid (emailStatusObj es ee now) (mkReservationRow now p rid)
        [] rfl stored hpre
      cases es <;> simp [persist_email_status, hps]
  · intro now p stored es pOk ee rid hv hn
    have hpre : ∀ x ∈ stored, rowIdInt x ≠ some rid := by
      intro x hx hc
      obtain ⟨n, hn2, hlt⟩ := next_id_gt stored rid hn x hx
      rw [hn2] at hc
      simp only [Option.some.injEq] at hc
      omega
    unfold api_create_order
    rw [hv, hn]
    cases pOk with
    | false => cases es <;> exact ⟨mkOrderRow now p rid, by simp⟩
    | true =>
      refine ⟨{mkOrderRow now p rid with
        email_notification := some (emailStatusObj es ee now)}, ?_⟩
      have hps := patch_scan_found rid (emailStatusObj es ee now) (mkOrderRow now p rid)
        [] rfl stored hpre
      cases es <;> simp [persist_email_status, hps]

/-- Concrete instantiation of `c7_append_frame`. -/
theorem c7_append_frame_witness :
    (∃ newRow, (api_create_reservation "t" samplePayloadRes [sampleRow 1] false "x" true true).2
        = [sampleRow 1] ++ [newRow])
  ∧ ∃ newRow, (api_create_order "t" samplePayloadOrd [] true "" true false).2 = [] ++ [newRow] := by
  constructor
  · exact c7_append_frame.1 "t" samplePayloadRes [sampleRow 1] false true "x" 2
      (by decide) (by decide)
  · exact c7_append_frame.2 "t" samplePayloadOrd [] true false "" 1
      (by decide) (by decide)

/-- C8: `send_notification_email` never raises to its caller — with a
configuration error or missing required settings it returns
`delivered = false` with an error describing the problem, without attempting
a connection; with complete settings, any exception during the attempted
delivery is caught and returned as `delivered = false` with its description;
and it reports success only when the transport succeeded. -/
theorem c8_notifier_never_raises :
    (∀ (env : String → Option String) (t : Option String),
      (smtp_config env).2.2 = none → (smtp_config env).2.1 ≠ [] →
      send_notification_email env t
        = { delivered := false,
            error := "Missing SMTP config environment variables: "
              ++ String.intercalate ", " (smtp_config env).2.1,
            attempted := false })
  ∧ (∀ (env : String → Option String) (ce : String) (t : Option String),
      (smtp_config env).2.2 = some ce →
      send_notification_email env t
        = { delivered := false, error := ce, attempted := false })
  ∧ (∀ (env : String → Option String) (e : String),
      (smtp_config env).2.2 = none → (smtp_config env).2.1 = [] →
      send_notification_email env (some e)
        = { delivered := false, error := e, attempted := true })
  ∧ (∀ (env : String → Option String) (t : Option String),
      (send_notification_email env t).delivered = true →
      t = none ∧ (send_notification_email env t).error = "") := by
  refine ⟨?_, ?_, ?_, ?_⟩
  · intro env t h1 h2
    unfold send_notification_email
    rcases hsc : smtp_config env with ⟨c, missing, err⟩
    rw [hsc] at h1 h2
    have h1' : err = none := h1
    have h2' : missing ≠ [] := h2
    subst h1'
    have hne : missing.isEmpty = false := by
      cases missing with
      | nil => exact absurd rfl h2'
      | cons a as => rfl
    simp [hne]
  · intro env ce t h1
    unfold send_notification_email
    rcases hsc : smtp_config env with ⟨c, missing, err⟩
    rw [hsc] at h1
    have h1' : err = some ce := h1
    subst h1'
    rfl
  · intro env e h1 h2
    unfold send_notification_email
    rcases hsc : smtp_config env with ⟨c, missing, err⟩
    rw [hsc] at h1 h2
    have h1' : err = none := h1
    have h2' : missing = [] := h2
    subst h1'
    subst h2'
    rfl
  · intro env t h
    unfold send_notification_email at h ⊢
    rcases hsc : smtp_config env with ⟨c, missing, err⟩
    rw [hsc] at h
    cases err with
    | some ce => simp at h
    | none =>
      cases hm : missing.isEmpty with
      | false => simp [hm] at h
      | true =>
        cases t with
        | some e => simp [hm] at h
        | none => simp [hm]

/-- Environment with no SMTP settings set. -/
def envEmpty : String → Option String := fun _ => none

/-- Environment with all required SMTP settings set
(`NOTIFY_FROM_EMAIL` defaults to the user, `SMTP_PORT` to 587). -/
def envFull : String → Option String := fun name =>
  if name = "SMTP_HOST" then some "smtp.example.com"
  else if name = "SMTP_USER" then some "user@example.com"
  else if name = "SMTP_PASSWORD" then some "hunter2"
  else if name = "NOTIFY_TO_EMAIL" then some "owner@example.com"
  else none

/-- Environment whose `SMTP_PORT` does not parse as an integer. -/
def envBadPort : String → Option String := fun name =>
  if name = "SMTP_PORT" then some "abc" else none

/-- Concrete instantiation of `c8_notifier_never_raises`. -/
theorem c8_notifier_never_raises_witness :
    send_notification_email envEmpty (some "boom")
      = { delivered := false,
          error := "Missing SMTP config environment variables: SMTP_HOST, SMTP_USER, SMTP_PASSWORD, NOTIFY_TO_EMAIL, NOTIFY_FROM_EMAIL",
          attempted := false }
  ∧ send_notification_email envBadPort none
      = { delivered := false, error := "Invalid SMTP_PORT value: 'abc'", attempted := false }
  ∧ send_notification_email envFull (some "connection refused")
      = { delivered := false, error := "connection refused", attempted := true }
  ∧ (send_notification_email envFull none).error = "" := by
  refine ⟨?_, ?_, ?_, ?_⟩
  · exact (c8_notifier_never_raises.1 envEmpty (some "boom") (by decide) (by decide)).trans
      (by decide)
  · exact c8_notifier_never_raises.2.1 envBadPort "Invalid SMTP_PORT value: 'abc'" none
      (by decide)
  · exact c8_notifier_never_raises.2.2.1 envFull "connection refused" (by decide) (by decide)
  · exact (c8_notifier_never_raises.2.2.2 envFull none (by decide)).2

/-! Normalization machinery: `.strip().lower()` is idempotent. -/

theorem asciiCase_not_space : ∀ p ∈ asciiCase, pySpace p.1 = false ∧ pySpace p.2 = false := by
  decide

theorem asciiCase_lower_fix : ∀ p ∈ asciiCase,
    asciiCase.find? (fun q => q.1 == p.2) = none := by
  decide

theorem pySpace_pyLowerChar (c : Char) : pySpace (pyLowerChar c) = pySpace c := by
  unfold pyLowerChar
  cases hf : asciiCase.find? (fun p => p.1 == c) with
  | none => rfl
  | some p =>
    have hmem := List.mem_of_find?_eq_some hf
    have hc : p.1 = c := by have := List.find?_some hf; simpa using this
    have h := asciiCase_not_space p hmem
    rw [h.2, ← hc, h.1]

theorem pyLowerChar_idem (c : Char) : pyLowerChar (pyLowerChar c) = pyLowerChar c := by
  cases hf : asciiCase.find? (fun p => p.1 == c) with
  | none =>
    have h1 : pyLowerChar c = c := by unfold pyLowerChar; rw [hf]
    rw [h1]
    exact h1
  | some p =>
    have h1 : pyLowerChar c = p.2 := by unfold pyLowerChar; rw [hf]
    have hmem := List.mem_of_find?_eq_some hf
    have h2 : pyLowerChar p.2 = p.2 := by
      unfold pyLowerChar
      rw [asciiCase_lower_fix p hmem]
    rw [h1]
    exact h2

theorem stripList_lower (l : List Char) :
    stripList (l.map pyLowerChar) = (stripList l).map pyLowerChar := by
  have hps : (pySpace ∘ pyLowerChar) = pySpace := funext pySpace_pyLowerChar
  unfold stripList
  rw [List.dropWhile_map, hps, ← List.map_reverse, List.dropWhile_map, hps,
    ← List.map_reverse]

theorem dropWhile_first_false {α : Type} (p : α → Bool) (l : List α) :
    l.dropWhile p = [] ∨ ∃ x xs, l.dropWhile p = x :: xs ∧ p x = false := by
  induction l with
  | nil => left; rfl
  | cons a as ih =>
    cases hp : p a with
    | true => simpa [List.dropWhile_cons, hp] using ih
    | false => right; exact ⟨a, as, by simp [List.dropWhile_cons, hp], hp⟩

theorem dropWhile_eq_self_of_head {α : Type} (p : α → Bool) (l : List α) (x : α)
    (hh : l.head? = some x) (hx : p x = false) : l.dropWhile p = l := by
  cases l with
  | nil => simp at hh
  | cons a as =>
    simp only [List.head?_cons, Option.some.injEq] at hh
    subst hh
    simp [List.dropWhile_cons, hx]

theorem getLast?_dropWhile {α : Type} (p : α → Bool) (l : List α)
    (h : l.dropWhile p ≠ []) : (l.dropWhile p).getLast? = l.getLast? := by
  induction l with
  | nil => simp [List.dropWhile] at h
  | cons a as ih =>
    cases hp : p a with
    | false => simp [List.dropWhile_cons, hp]
    | true =>
      rw [List.dropWhile_cons, if_pos hp] at h ⊢
      rw [ih h]
      cases as with
      | nil => simp [List.dropWhile] at h
      | cons b bs => rw [List.getLast?_cons_cons]

theorem stripList_idem (l : List Char) : stripList (stripList l) = stripList l := by
  by_cases hnil : stripList l = []
  · rw [hnil]
    rfl
  have hvne : (l.dropWhile pySpace).reverse.dropWhile pySpace ≠ [] := by
    intro hc
    apply hnil
    unfold stripList
    rw [hc]
    rfl
  -- the last element of the stripped list is the head of `dropWhile pySpace l`
  have hune : l.dropWhile pySpace ≠ [] := by
    intro hc
    apply hvne
    rw [hc]
    rfl
  obtain ⟨x, xs, hu, hx⟩ :
      ∃ x xs, l.dropWhile pySpace = x :: xs ∧ pySpace x = false := by
    rcases dropWhile_first_false pySpace l with h | h
    · exact absurd h hune
    · exact h
  obtain ⟨y, ys, hv, hy⟩ :
      ∃ y ys, (l.dropWhile pySpace).reverse.dropWhile pySpace = y :: ys
        ∧ pySpace y = false := by
    rcases dropWhile_first_false pySpace (l.dropWhile pySpace).reverse with h | h
    · exact absurd h hvne
    · exact h
  -- head of the stripped list fails `pySpace`
  have hhead : (stripList l).head? = some x := by
    unfold stripList
    rw [List.head?_reverse, getLast?_dropWhile pySpace _ hvne, List.getLast?_reverse,
      hu, List.head?_cons]
  have hstep1 : (stripList l).dropWhile pySpace = stripList l :=
    dropWhile_eq_self_of_head pySpace _ x hhead hx
  have hstep2 : (stripList l).reverse.dropWhile pySpace = (stripList l).reverse := by
    apply dropWhile_eq_self_of_head pySpace _ y _ hy
    unfold stripList
    rw [List.reverse_reverse, hv, List.head?_cons]
  have hdef : stripList (stripList l)
      = (((stripList l).dropWhile pySpace).reverse.dropWhile pySpace).reverse := rfl
  rw [hdef, hstep1, hstep2, List.reverse_reverse]

theorem pyStrip_idem (s : String) : pyStrip (pyStrip s) = pyStrip s :=
  congrArg String.mk (stripList_idem s.data)

theorem pyLower_idem (s : String) : pyLower (pyLower s) = pyLower s := by
  unfold pyLower
  refine congrArg String.mk ?_
  show (s.data.map pyLowerChar).map pyLowerChar = s.data.map pyLowerChar
  rw [List.map_map]
  exact List.map_congr_left (fun c _ => pyLowerChar_idem c)

theorem pyStrip_pyLower (s : String) : pyStrip (pyLower s) = pyLower (pyStrip s) := by
  unfold pyStrip pyLower
  exact congrArg String.mk (stripList_lower s.data)

/-- `.strip().lower()` normalization is idempotent. -/
theorem pyNorm_idem (s : String) :
    pyLower (pyStrip (pyLower (pyStrip s))) = pyLower (pyStrip s) := by
  rw [pyStrip_pyLower, pyStrip_idem, pyLower_idem]

/-- C9: the admin status-update handlers normalize the submitted status
before validating it — processing a raw status string equals processing its
stripped and lowercased form, an absent status field behaves exactly like
`"new"`, and for example `" Confirmed "` is accepted for a reservation and
stored as `"confirmed"`. -/
theorem c9_status_normalized :
    (∀ (records : List Row) (rid : Int) (s : String),
      admin_update_reservation_status records rid (some s)
        = admin_update_reservation_status records rid (some (pyLower (pyStrip s))))
  ∧ (∀ (records : List Row) (rid : Int),
      admin_update_reservation_status records rid none
        = admin_update_reservation_status records rid (some "new"))
  ∧ (∀ (records : List Row) (rid : Int) (s : String),
      admin_update_order_status records rid (some s)
        = admin_update_order_status records rid (some (pyLower (pyStrip s))))
  ∧ (∀ (records : List Row) (rid : Int),
      admin_update_order_status records rid none
        = admin_update_order_status records rid (some "new"))
  ∧ (∀ (r : Row) (post : List Row) (rid : Int), rowIdInt r = some rid →
      admin_update_reservation_status (r :: post) rid (some " Confirmed ")
        = (StatusResult.updated, {r with status := "confirmed"} :: post)) := by
  refine ⟨?_, ?_, ?_, ?_, ?_⟩
  · intro records rid s
    unfold admin_update_reservation_status
    simp only [Option.getD_some]
    rw [pyNorm_idem]
  · intro records rid
    rfl
  · intro records rid s
    unfold admin_update_order_status
    simp only [Option.getD_some]
    rw [pyNorm_idem]
  · intro records rid
    rfl
  · intro r post rid hr
    unfold admin_update_reservation_status
    have hnorm : pyLower (pyStrip ((some " Confirmed ").getD "new")) = "confirmed" := by
      decide
    rw [hnorm]
    unfold set_status
    rw [show reservationAllowed.contains "confirmed" = true by decide]
    have hscan : set_status_scan rid "confirmed" (r :: post)
        = some (some ({r with status := "confirmed"} :: post)) := by
      simp [set_status_scan, hr]
    rw [hscan]
    simp

/-- Concrete instantiation of `c9_status_normalized`. -/
theorem c9_status_normalized_witness :
    admin_update_reservation_status [sampleRow 4] 4 (some " Confirmed ")
      = (StatusResult.updated, [{ sampleRow 4 with status := "confirmed" }]) := by
  exact c9_status_normalized.2.2.2.2 (sampleRow 4) [] 4 (by decide)
